import Mathlib

/-!
Verification development for the `text_overlay.py` image-annotation program.

The embedding follows `src/text_overlay.py` directly:
* `overlayCore` / `overlay_text_on_image` embed `overlay_text_on_image`;
* `process_file` (with `processRows`) embeds `process_file`;
* `os_basename`, `os_dirname`, `os_splitext`, `os_join` embed the
  `os.path` (posixpath) operations the program calls;
* pixel coordinates and measured text widths are modelled as rationals
  (Python floats; the program only multiplies by decimal constants, which
  are rendered here as the exact rationals 1/20, 1/25, 4/5, 6/5, 3/2,
  1/50, 1/10);
* the PIL environment (which files open to which images, whether
  `arial.ttf` loads, whether `draw` has `textbbox`, and the text
  measurement function) is a parameter `Env`;
* a pandas cell is `Option String`: `none` is NaN, which is what
  `pd.read_csv` produces for an empty cell, so `pd.isna` is `Option.isNone`.
-/

set_option autoImplicit false

/- The arithmetic of ℚ must evaluate inside concrete runs of the model;
the Batteries definitions are sealed, so re-open them for reduction. -/
set_option allowUnsafeReducibility true in
attribute [semireducible] Rat.mul Rat.add Rat.sub Rat.inv

namespace TextOverlay

/-- A raster image: the model keeps the dimensions, which is all the
drawing code reads (`img.size`). -/
structure Image where
  width : Nat
  height : Nat
deriving DecidableEq

/-- A PIL font handle: either `ImageFont.truetype("arial.ttf", size)` or
`ImageFont.load_default()`. -/
inductive Font where
  | truetype (size : Nat)
  | defaultFont
deriving DecidableEq

/-- One `draw.text(...)` call: position, text, RGB fill, font. -/
structure DrawCall where
  px : ℚ
  py : ℚ
  text : String
  fill : Nat × Nat × Nat
  font : Font
deriving DecidableEq

/-- The ambient PIL environment of a run: the file system (path to image),
whether `arial.ttf` is available, whether the draw context has `textbbox`
(PIL ≥ 8), and the text-width measurement `textbbox` performs. -/
structure Env where
  fs : List (String × Image)
  truetypeOk : Bool
  hasTextbbox : Bool
  measure : Font → String → ℚ

/-- Python's `min` on two rationals (float `min` in the source). -/
def qmin (a b : ℚ) : ℚ := if a ≤ b then a else b

/-- Model of `Image.open`: look the path up in the environment's file system;
`none` models the exception (missing file, decode error). -/
def fsLookup (p : String) : List (String × Image) → Option Image
  | [] => none
  | (q, i) :: rest => if q = p then some i else fsLookup p rest

/-! ### `os.path` (posixpath) primitives -/

/-- Index of the last occurrence of `c` in `l` (Python `str.rfind`,
`none` for Python's `-1`). -/
def rfindIdx (c : Char) : List Char → Option Nat
  | [] => none
  | a :: l =>
    match rfindIdx c l with
    | some i => some (i + 1)
    | none => if a = c then some 0 else none

/-- Model of `os.path.basename`: everything after the last `/`. -/
def os_basename (p : String) : String :=
  match rfindIdx '/' p.data with
  | some i => String.mk (p.data.drop (i + 1))
  | none => p

/-- Remove trailing slashes (Python `str.rstrip('/')`). -/
def rstripSlashes (l : List Char) : List Char :=
  (l.reverse.dropWhile (fun c => c = '/')).reverse

/-- Model of `os.path.dirname`: everything up to the last `/`, with trailing
slashes stripped unless the result is all slashes. -/
def os_dirname (p : String) : String :=
  match rfindIdx '/' p.data with
  | none => ""
  | some i =>
    let head := p.data.take (i + 1)
    if head.all (fun c => c = '/') then String.mk head
    else String.mk (rstripSlashes head)

/-- Model of `os.path.splitext`: split at the last dot, provided it lies after the
last `/` and the part of the file name before it is not all dots. -/
def os_splitext (p : String) : String × String :=
  let l := p.data
  match rfindIdx '.' l with
  | none => (p, "")
  | some di =>
    let si := match rfindIdx '/' l with
      | some s => s + 1
      | none => 0
    if si ≤ di ∧ ¬ ((l.drop si).take (di - si)).all (fun c => c = '.') then
      (String.mk (l.take di), String.mk (l.drop di))
    else (p, "")

/-- Python `str.lower`, for ASCII text: lowercase each character
(`Char.toLower` lowercases exactly the ASCII uppercase range). -/
def pyLower (s : String) : String :=
  String.mk (s.data.map Char.toLower)

/-- Python `str.endswith`: suffix test on the characters. -/
def strEndsWith (s suffix : String) : Bool :=
  suffix.data.isSuffixOf s.data

/-- Whether a string starts with `/`. -/
def headIsSlash (s : String) : Bool :=
  match s.data with
  | c :: _ => c = '/'
  | [] => false

/-- Whether a string ends with `/`. -/
def lastIsSlash (s : String) : Bool :=
  match s.data.getLast? with
  | some c => c = '/'
  | none => false

/-- Model of `os.path.join` on two components (posixpath). -/
def os_join (a b : String) : String :=
  if headIsSlash b then b
  else if a = "" then a ++ b
  else if lastIsSlash a then a ++ b
  else a ++ "/" ++ b

/-! ### The annotator: `overlay_text_on_image` -/

/-- The observable effect of a successful `overlay_text_on_image` call:
image dimensions, title text, final font sizes and fonts, every
`draw.text` call issued, and the path the image is saved to. -/
structure OverlayResult where
  imgW : Nat
  imgH : Nat
  titleText : String
  titleFontSize : Nat
  bulletFontSize : Nat
  titleFont : Font
  bulletFont : Font
  titleDraws : List DrawCall
  bulletDraws : List DrawCall
  outputPath : String
deriving DecidableEq

/-- The `while title_width > width * 0.8 and title_font_size > 16` loop of
`overlay_text_on_image`, lines 44-48: each iteration subtracts 2 from the
size and reloads `arial.ttf` at the new size (which raises when the font
is unavailable — the reload is outside the font-fallback handler), then
re-measures.  Returns final size, font and measured width.

The first `Nat` is a structural-recursion counter.  Called with the
initial size as counter it never cuts the loop short: an iteration needs
`16 < size` and subtracts 2, so under the invariant
`size ≤ 2 * counter + 16` (trivially true at the call site) the counter
reaches 0 only when the guard is already false, and the 0 case returns
exactly what the exited loop returns. -/
def shrinkLoop (ttOk : Bool) (m : Font → String → ℚ) (title : String) (w : Nat) :
    Nat → Nat → Font → ℚ → Except String (Nat × Font × ℚ)
  | 0, size, font, tw => Except.ok (size, font, tw)
  | fuel + 1, size, font, tw =>
    if tw > (w : ℚ) * (4/5) ∧ 16 < size then
      if ttOk then
        let size' := size - 2
        let font' := Font.truetype size'
        shrinkLoop ttOk m title w fuel size' font' (m font' title)
      else Except.error "cannot open resource arial.ttf"
    else Except.ok (size, font, tw)

/-- Line 22: `title_font_size = max(20, min(int(width * 0.05), 80))`. -/
def titleSize0 (w : Nat) : Nat := max 20 (min (w * 5 / 100) 80)

/-- Line 23: `bullet_font_size = max(16, min(int(width * 0.04), 60))`. -/
def bulletSize0 (w : Nat) : Nat := max 16 (min (w * 4 / 100) 60)

/-- Lines 26-32: `ImageFont.truetype("arial.ttf", size)` with fallback to
the default font when the truetype font is unavailable. -/
def font0 (ttOk : Bool) (size : Nat) : Font :=
  if ttOk then Font.truetype size else Font.defaultFont

/-- Line 35: the title string `"Show me steps for " + prompt_text.lower()`. -/
def titleOf (prompt_text : String) : String :=
  "Show me steps for " ++ pyLower prompt_text

/-- Lines 96-99 and 153-154: `<name>_modified<ext>` from the basename of
the image path. -/
def derivedOutName (ip : String) : String :=
  let fn := os_basename ip
  let ne := os_splitext fn
  ne.1 ++ "_modified" ++ ne.2

/-- The pure tail of `overlay_text_on_image` after the fallible steps
(image open, title shrink): bullet sizing, all draw calls, output path.
`tfs`/`tfont` are the title font size and font after the shrink loop. -/
def mkResult (ttOk : Bool) (image_path prompt_text : String)
    (output_path : Option String) (img : Image) (tfs : Nat) (tfont : Font) :
    OverlayResult :=
  let w := img.width
  let h := img.height
  let bfs := bulletSize0 w
  let bfont := if ttOk then Font.truetype bfs else Font.defaultFont
  let title := titleOf prompt_text
  let x : ℚ := (w : ℚ) * (1/20)
  let y : ℚ := (h : ℚ) * (1/20)
  let offs : List (ℚ × ℚ) := [(-1, -1), (-1, 1), (1, -1), (1, 1)]
  let titleDraws :=
    offs.map (fun o => DrawCall.mk (x + o.1) (y + o.2) title (0, 0, 0) tfont)
      ++ [DrawCall.mk x y title (255, 255, 255) tfont]
  let titleHeight : ℚ := (tfs : ℚ) * (6/5)
  let bys : ℚ := y + titleHeight + (h : ℚ) * (1/50)
  let avail : ℚ := (h : ℚ) - bys - (h : ℚ) * (1/10)
  let spacing : ℚ := qmin ((bfs : ℚ) * (3/2)) (avail / 5)
  let bulletDraws := (List.range 5).flatMap (fun j =>
    let bt := toString (j + 1) ++ ". "
    let yy := bys + (j : ℚ) * spacing
    offs.map (fun o => DrawCall.mk (x + o.1) (yy + o.2) bt (0, 0, 0) bfont)
      ++ [DrawCall.mk x yy bt (255, 255, 255) bfont])
  let outp := match output_path with
    | some p => p
    | none => os_join (os_dirname image_path) (derivedOutName image_path)
  { imgW := w, imgH := h, titleText := title, titleFontSize := tfs,
    bulletFontSize := bfs, titleFont := tfont, bulletFont := bfont,
    titleDraws := titleDraws, bulletDraws := bulletDraws, outputPath := outp }

/-- Body of `overlay_text_on_image` before the catch-all `except`: open the image,
clamp the title size, load fonts (falling back to the default font),
measure and shrink the title, then produce the drawing record.  An
`Except.error` models an uncaught exception inside the `try`. -/
def overlayCore (e : Env) (image_path prompt_text : String)
    (output_path : Option String) : Except String OverlayResult :=
  match fsLookup image_path e.fs with
  | none => Except.error "cannot open image"
  | some img =>
    let w := img.width
    let tfs0 := titleSize0 w
    let tfont0 := font0 e.truetypeOk tfs0
    let title := titleOf prompt_text
    if e.hasTextbbox then
      match shrinkLoop e.truetypeOk e.measure title w tfs0 tfs0 tfont0 (e.measure tfont0 title) with
      | Except.error s => Except.error s
      | Except.ok (s, f, _) =>
        Except.ok (mkResult e.truetypeOk image_path prompt_text output_path img s f)
    else Except.ok (mkResult e.truetypeOk image_path prompt_text output_path img tfs0 tfont0)

/-- Model of `overlay_text_on_image`: the catch-all `except Exception` turns any
failure into `None` (after logging). -/
def overlay_text_on_image (e : Env) (image_path prompt_text : String)
    (output_path : Option String) : Option OverlayResult :=
  (overlayCore e image_path prompt_text output_path).toOption

/-! ### The loader: `process_file` -/

/-- The parsed tabular file: column headers and rows of cells.  A cell is
`Option String`; `none` is pandas NaN (what `pd.read_csv` yields for an
empty cell), so `pd.isna cell = cell.isNone`. -/
structure Table where
  headers : List String
  rows : List (List (Option String))

/-- Index of a column name in the header list. -/
def colIndex (col : String) : List String → Option Nat
  | [] => none
  | h :: t => if h = col then some 0 else (colIndex col t).map (fun i => i + 1)

/-- Model of `row[col]` on a pandas row Series: `KeyError col` when the column does
not exist, otherwise the cell (possibly NaN). -/
def rowGet (headers : List String) (row : List (Option String)) (col : String) :
    Except String (Option String) :=
  match colIndex col headers with
  | some i => Except.ok (row.getD i none)
  | none => Except.error col

/-- The output path `process_file` passes to `overlay_text_on_image`,
line 155: the derived name inside the fixed `modified_images` directory. -/
def processOutPath (ip : String) : String :=
  os_join "modified_images" (derivedOutName ip)

instance {ε α : Type} [DecidableEq ε] [DecidableEq α] : DecidableEq (Except ε α) :=
  fun a b =>
  match a, b with
  | Except.error x, Except.error y =>
    if h : x = y then isTrue (by rw [h])
    else isFalse (fun hc => h (Except.error.inj hc))
  | Except.error _, Except.ok _ => isFalse (fun hc => Except.noConfusion hc)
  | Except.ok _, Except.error _ => isFalse (fun hc => Except.noConfusion hc)
  | Except.ok x, Except.ok y =>
    if h : x = y then isTrue (by rw [h])
    else isFalse (fun hc => h (Except.ok.inj hc))

/-- Per-row outcome of the `process_file` loop: skipped for missing data
(with its warning), failed (overlay returned `None`), or succeeded with
the summary record fields and the produced image. -/
inductive RowOutcome where
  | skippedMissing (idx : Nat)
  | failed (idx : Nat)
  | succeeded (originalImage promptVal modifiedImage : String) (res : OverlayResult)
deriving DecidableEq

/-- The `for idx, row in df.iterrows()` loop of `process_file`, lines
143-166.  Fetches both cells (raising `KeyError` when a column is
missing), skips rows with NaN cells, otherwise runs the annotator with
the derived output path; an uncaught `KeyError` aborts the whole loop. -/
def processRows (e : Env) (headers : List String) :
    Nat → List (List (Option String)) → Except String (List RowOutcome)
  | _, [] => Except.ok []
  | idx, r :: rs =>
    match rowGet headers r "image_location" with
    | Except.error c => Except.error c
    | Except.ok ipO =>
      match rowGet headers r "prompt_text" with
      | Except.error c => Except.error c
      | Except.ok ptO =>
        match ipO, ptO with
        | some ip, some pt =>
          let outp := processOutPath ip
          let outcome := match overlay_text_on_image e ip pt (some outp) with
            | some res => RowOutcome.succeeded ip pt res.outputPath res
            | none => RowOutcome.failed idx
          match processRows e headers (idx + 1) rs with
          | Except.error c => Except.error c
          | Except.ok rest => Except.ok (outcome :: rest)
        | _, _ =>
          match processRows e headers (idx + 1) rs with
          | Except.error c => Except.error c
          | Except.ok rest => Except.ok (RowOutcome.skippedMissing idx :: rest)

/-- The records accumulated in `results` (lines 161-166): one triple
`(original_image, prompt, modified_image)` per successful row. -/
def successRecords (l : List RowOutcome) : List (String × String × String) :=
  l.filterMap (fun o => match o with
    | RowOutcome.succeeded a b c _ => some (a, b, c)
    | _ => none)

/-- The lines `pd.DataFrame(results).to_csv(..., index=False)` writes: a
header plus one line per record; an empty record list gives an empty
DataFrame, which pandas serializes as a single empty line (no header). -/
def summaryCsvLines (recs : List (String × String × String)) : List String :=
  if recs = [] then [""]
  else "original_image,prompt,modified_image"
    :: recs.map (fun t => t.1 ++ "," ++ t.2.1 ++ "," ++ t.2.2)

/-- An error that escapes `process_file`. -/
inductive PFErr where
  | unsupportedFormat
  | missingColumns
  | keyError (col : String)
deriving DecidableEq

/-- The observable effect of a `process_file` call: the escaping error if
any, the per-row outcomes reached, and the summary file (path and lines)
when the run completes. -/
structure PFResult where
  err : Option PFErr
  outcomes : List RowOutcome
  summaryPath : Option String
  summaryLines : Option (List String)
deriving DecidableEq

/-- Model of `process_file`, lines 110-173: extension check, the (dead) required-
column check — the source assigns the literal column names and then tests
them against `None`, so the `missingColumns` branch never fires — then the
row loop and the summary CSV. -/
def process_file (e : Env) (filePath : String) (t : Table) : PFResult :=
  if ¬ (strEndsWith filePath ".csv" ∨ strEndsWith filePath ".xls"
      ∨ strEndsWith filePath ".xlsx") then
    { err := some PFErr.unsupportedFormat, outcomes := [],
      summaryPath := none, summaryLines := none }
  else
    let image_col : Option String := some "image_location"
    let prompt_col : Option String := some "prompt_text"
    if image_col.isNone ∨ prompt_col.isNone then
      { err := some PFErr.missingColumns, outcomes := [],
        summaryPath := none, summaryLines := none }
    else
      match processRows e t.headers 0 t.rows with
      | Except.error c =>
        { err := some (PFErr.keyError c), outcomes := [],
          summaryPath := none, summaryLines := none }
      | Except.ok outs =>
        { err := none, outcomes := outs,
          summaryPath := some (os_join "modified_images" "processing_results.csv"),
          summaryLines := some (summaryCsvLines (successRecords outs)) }

/-! ### Derived observations used by the specification statements -/

/-- The white (fill `(255,255,255)`) draw calls of a draw list: one per
rendered text element, above its four black outline copies. -/
def whiteDraws (l : List DrawCall) : List DrawCall :=
  l.filter (fun d => d.fill = (255, 255, 255))

/-- The image files a finished run has written: one per successful row,
at the row's output path, with the row's image dimensions (the program
draws on the opened image in place, so dimensions are preserved). -/
def writtenImages (outs : List RowOutcome) : List (String × Image) :=
  outs.filterMap (fun o => match o with
    | RowOutcome.succeeded _ _ _ r => some (r.outputPath, Image.mk r.imgW r.imgH)
    | _ => none)

/-- The image paths a run reads: one per row that is neither skipped for
missing data nor stopped by a `KeyError`. -/
def rowIps (hs : List String) (rows : List (List (Option String))) : List String :=
  rows.filterMap (fun r =>
    match rowGet hs r "image_location", rowGet hs r "prompt_text" with
    | Except.ok (some ip), Except.ok (some _) => some ip
    | _, _ => none)

/-! ### Concrete environments and tables used as test inputs -/

/-- A benign run environment: one 1000×800 image, `arial.ttf` available,
`textbbox` available, every measured width 0. -/
def envB : Env := ⟨[("a.png", ⟨1000, 800⟩)], true, true, fun _ _ => 0⟩

/-- The annotator's result on `envB` with prompt "Make Tea": width 1000
gives clamped title size 50, and width 0 never triggers the shrink loop. -/
def demoRes : OverlayResult :=
  mkResult true "a.png" "Make Tea" none ⟨1000, 800⟩ 50 (Font.truetype 50)

/-- A 420-wide image (clamped title size 21, odd) with every measured
width 10000, so the shrink loop runs 21 → 19 → 17 → 15. -/
def envOdd : Env := ⟨[("a.png", ⟨420, 400⟩)], true, true, fun _ _ => 10000⟩

/-- A 460-wide image (clamped title size 23, odd) with every measured
width 100000, so the shrink loop runs 23 → 21 → 19 → 17 → 15. -/
def envOdd2 : Env := ⟨[("b.png", ⟨460, 400⟩)], true, true, fun _ _ => 100000⟩

/-- Environment whose file system holds `imgs/cat.png`. -/
def envDir : Env := ⟨[("imgs/cat.png", ⟨1000, 800⟩)], true, true, fun _ _ => 0⟩

/-- The annotator's result on `envDir` for `imgs/cat.png`, prompt "tea". -/
def dirRes : OverlayResult :=
  mkResult true "imgs/cat.png" "tea" none ⟨1000, 800⟩ 50 (Font.truetype 50)

/-- The annotator's result on `envOdd`: final title size 15 (below 16). -/
def oddRes : OverlayResult :=
  mkResult true "a.png" "x" none ⟨420, 400⟩ 15 (Font.truetype 15)

/-- The annotator's result on `envOdd2`: final title size 15 (below 16). -/
def oddRes2 : OverlayResult :=
  mkResult true "b.png" "y" none ⟨460, 400⟩ 15 (Font.truetype 15)

/-- An environment with an empty file system: every image open fails. -/
def envEmpty : Env := ⟨[], true, true, fun _ _ => 0⟩

/-- Environment where `arial.ttf` is unavailable and every measured width
is 10000, so the shrink loop's font reload raises. -/
def envNoFont : Env := ⟨[("a.png", ⟨1000, 800⟩)], false, true, fun _ _ => 10000⟩

/-- A parsed table that lacks both required columns and has no data rows
(a CSV whose only line is the header `foo,bar`). -/
def tblWrongCols : Table := ⟨["foo", "bar"], []⟩

/-- A well-formed one-row table referencing `a.png`. -/
def tblOne : Table := ⟨["image_location", "prompt_text"], [[some "a.png", some "tea"]]⟩

/-- A one-row table whose image file does not exist in `envEmpty`. -/
def tblMissingImg : Table :=
  ⟨["image_location", "prompt_text"], [[some "missing.png", some "tea"]]⟩

/-! ### Basic lemmas -/

theorem strExt {a b : String} (h : a.data = b.data) : a = b := by
  cases a
  cases b
  exact congrArg String.mk h

theorem titleSize0_bounds (w : Nat) : 20 ≤ titleSize0 w ∧ titleSize0 w ≤ 80 := by
  unfold titleSize0
  omega

theorem bulletSize0_bounds (w : Nat) : 16 ≤ bulletSize0 w ∧ bulletSize0 w ≤ 60 := by
  unfold bulletSize0
  omega

/-- Full characterisation of a successful run of the title-shrink loop:
the final size differs from the initial one by a number of 2px steps, it
never drops below 15, the final font is unchanged (no iterations) or the
truetype font at the final size, and on exit the loop guard is false. -/
theorem shrinkLoop_spec (ttOk : Bool) (m : Font → String → ℚ) (title : String) (w : Nat) :
    ∀ (fuel size : Nat) (f : Font) (tw : ℚ) (s' : Nat) (f' : Font) (tw' : ℚ),
    size ≤ 2 * fuel + 16 → 15 ≤ size →
    shrinkLoop ttOk m title w fuel size f tw = Except.ok (s', f', tw') →
    ∃ k, s' + 2 * k = size ∧ 15 ≤ s' ∧
      ((k = 0 ∧ f' = f ∧ tw' = tw) ∨ (f' = Font.truetype s' ∧ tw' = m f' title)) ∧
      ¬(tw' > (w : ℚ) * (4/5) ∧ 16 < s') := by
  intro fuel
  induction fuel with
  | zero =>
    intro size f tw s' f' tw' hinv h15 hok
    simp only [shrinkLoop, Except.ok.injEq, Prod.mk.injEq] at hok
    obtain ⟨rfl, rfl, rfl⟩ := hok
    exact ⟨0, by omega, h15, Or.inl ⟨rfl, rfl, rfl⟩, fun hc => by omega⟩
  | succ fuel ih =>
    intro size f tw s' f' tw' hinv h15 hok
    rw [shrinkLoop] at hok
    by_cases hg : tw > (w : ℚ) * (4/5) ∧ 16 < size
    · rw [if_pos hg] at hok
      cases httOk : ttOk with
      | false =>
        rw [httOk] at hok
        simp at hok
      | true =>
        subst httOk
        simp only [if_pos] at hok
        obtain ⟨k, hk, h15', hfc, hexit⟩ :=
          ih (size - 2) (Font.truetype (size - 2)) (m (Font.truetype (size - 2)) title)
            s' f' tw' (by omega) (by omega) hok
        refine ⟨k + 1, by omega, h15', ?_, hexit⟩
        rcases hfc with ⟨hk0, hf, htw⟩ | ⟨hf, htw⟩
        · subst hk0
          have hs' : s' = size - 2 := by omega
          refine Or.inr ⟨?_, ?_⟩
          · rw [hf, hs']
          · rw [htw, hf]
        · exact Or.inr ⟨hf, htw⟩
    · rw [if_neg hg] at hok
      simp only [Except.ok.injEq, Prod.mk.injEq] at hok
      obtain ⟨rfl, rfl, rfl⟩ := hok
      exact ⟨0, by omega, h15, Or.inl ⟨rfl, rfl, rfl⟩, hg⟩

/-- Inversion for a successful `overlayCore`: the image was found, and
the result is `mkResult` at the title size/font the (possibly skipped)
shrink loop produced. -/
theorem overlayCore_eq_ok {e : Env} {ip pt : String} {op : Option String}
    {r : OverlayResult} (h : overlayCore e ip pt op = Except.ok r) :
    ∃ img, fsLookup ip e.fs = some img ∧
      ((e.hasTextbbox = false ∧
        r = mkResult e.truetypeOk ip pt op img (titleSize0 img.width)
          (font0 e.truetypeOk (titleSize0 img.width))) ∨
       (e.hasTextbbox = true ∧ ∃ s f tw',
         shrinkLoop e.truetypeOk e.measure (titleOf pt) img.width (titleSize0 img.width)
           (titleSize0 img.width) (font0 e.truetypeOk (titleSize0 img.width))
           (e.measure (font0 e.truetypeOk (titleSize0 img.width)) (titleOf pt))
           = Except.ok (s, f, tw') ∧
         r = mkResult e.truetypeOk ip pt op img s f)) := by
  unfold overlayCore at h
  cases hlk : fsLookup ip e.fs with
  | none =>
    rw [hlk] at h
    exact absurd h (by simp)
  | some img =>
    rw [hlk] at h
    refine ⟨img, rfl, ?_⟩
    cases hb : e.hasTextbbox with
    | false =>
      rw [hb] at h
      simp only [Bool.false_eq_true, if_false, Except.ok.injEq] at h
      exact Or.inl ⟨rfl, h.symm⟩
    | true =>
      rw [hb] at h
      simp only [if_true] at h
      refine Or.inr ⟨rfl, ?_⟩
      cases hs : shrinkLoop e.truetypeOk e.measure (titleOf pt) img.width
          (titleSize0 img.width) (titleSize0 img.width)
          (font0 e.truetypeOk (titleSize0 img.width))
          (e.measure (font0 e.truetypeOk (titleSize0 img.width)) (titleOf pt)) with
      | error s =>
        rw [hs] at h
        exact absurd h (by simp)
      | ok v =>
        rw [hs] at h
        obtain ⟨s, f, tw'⟩ := v
        simp only [Except.ok.injEq] at h
        exact ⟨s, f, tw', rfl, h.symm⟩

@[simp] theorem mkResult_imgW (ttOk : Bool) (ip pt : String) (op : Option String)
    (img : Image) (tfs : Nat) (tfont : Font) :
    (mkResult ttOk ip pt op img tfs tfont).imgW = img.width := rfl

@[simp] theorem mkResult_imgH (ttOk : Bool) (ip pt : String) (op : Option String)
    (img : Image) (tfs : Nat) (tfont : Font) :
    (mkResult ttOk ip pt op img tfs tfont).imgH = img.height := rfl

@[simp] theorem mkResult_titleText (ttOk : Bool) (ip pt : String) (op : Option String)
    (img : Image) (tfs : Nat) (tfont : Font) :
    (mkResult ttOk ip pt op img tfs tfont).titleText = titleOf pt := rfl

@[simp] theorem mkResult_titleFontSize (ttOk : Bool) (ip pt : String) (op : Option String)
    (img : Image) (tfs : Nat) (tfont : Font) :
    (mkResult ttOk ip pt op img tfs tfont).titleFontSize = tfs := rfl

@[simp] theorem mkResult_bulletFontSize (ttOk : Bool) (ip pt : String) (op : Option String)
    (img : Image) (tfs : Nat) (tfont : Font) :
    (mkResult ttOk ip pt op img tfs tfont).bulletFontSize = bulletSize0 img.width := rfl

@[simp] theorem mkResult_titleFont (ttOk : Bool) (ip pt : String) (op : Option String)
    (img : Image) (tfs : Nat) (tfont : Font) :
    (mkResult ttOk ip pt op img tfs tfont).titleFont = tfont := rfl

@[simp] theorem mkResult_bulletFont (ttOk : Bool) (ip pt : String) (op : Option String)
    (img : Image) (tfs : Nat) (tfont : Font) :
    (mkResult ttOk ip pt op img tfs tfont).bulletFont
      = font0 ttOk (bulletSize0 img.width) := rfl

@[simp] theorem mkResult_outputPath_some (ttOk : Bool) (ip pt p : String)
    (img : Image) (tfs : Nat) (tfont : Font) :
    (mkResult ttOk ip pt (some p) img tfs tfont).outputPath = p := rfl

@[simp] theorem mkResult_outputPath_none (ttOk : Bool) (ip pt : String)
    (img : Image) (tfs : Nat) (tfont : Font) :
    (mkResult ttOk ip pt none img tfs tfont).outputPath
      = os_join (os_dirname ip) (derivedOutName ip) := rfl

/-- A successful `overlay_text_on_image` is a successful `overlayCore`. -/
theorem overlay_eq_some {e : Env} {ip pt : String} {op : Option String}
    {r : OverlayResult} (h : overlay_text_on_image e ip pt op = some r) :
    overlayCore e ip pt op = Except.ok r := by
  unfold overlay_text_on_image at h
  cases hco : overlayCore e ip pt op with
  | error s =>
    rw [hco] at h
    simp [Except.toOption] at h
  | ok v =>
    rw [hco] at h
    simp only [Except.toOption, Option.some.injEq] at h
    rw [h]

/-! ### Claim C2 -/

/-- C2, counterexample.  The claim as stated is false: on a 420-pixel-wide
image the clamped initial title size is `int(420*0.05) = 21` (odd), and
when the measured title width stays above 80% of the image width the
shrink loop runs 21 → 19 → 17 → 15, because the guard only requires the
size to exceed 16 *before* each 2px step.  The title is then drawn with
font size 15, outside the claimed interval [16, 80]. -/
theorem C2_counterexample :
    overlay_text_on_image envOdd "a.png" "x" none = some oddRes ∧
    oddRes.titleFontSize < 16 :=
  ⟨by decide, by decide⟩

/-- C2 (amended): for every image processed by `overlay_text_on_image`,
the title font size actually used to draw the title is within [15, 80]
after clamping and width-based shrinking (the shrink loop can step from
17 to 15), and the bullet font size is within [16, 60] after clamping. -/
theorem C2_font_size_ranges (e : Env) (ip pt : String) (op : Option String)
    (r : OverlayResult) (h : overlay_text_on_image e ip pt op = some r) :
    15 ≤ r.titleFontSize ∧ r.titleFontSize ≤ 80 ∧
    16 ≤ r.bulletFontSize ∧ r.bulletFontSize ≤ 60 := by
  obtain ⟨img, hlk, hcase⟩ := overlayCore_eq_ok (overlay_eq_some h)
  have hts := titleSize0_bounds img.width
  have hbs := bulletSize0_bounds img.width
  rcases hcase with ⟨hb, rfl⟩ | ⟨hb, s, f, tw', hs, rfl⟩
  · simp only [mkResult_titleFontSize, mkResult_bulletFontSize]
    omega
  · obtain ⟨k, hk, h15, _, _⟩ :=
      shrinkLoop_spec e.truetypeOk e.measure (titleOf pt) img.width
        (titleSize0 img.width) (titleSize0 img.width)
        (font0 e.truetypeOk (titleSize0 img.width))
        (e.measure (font0 e.truetypeOk (titleSize0 img.width)) (titleOf pt))
        s f tw' (by omega) (by omega) hs
    simp only [mkResult_titleFontSize, mkResult_bulletFontSize]
    omega

/-- Witness for C2: the amended bounds at a concrete successful run. -/
theorem C2_font_size_ranges_witness :
    15 ≤ demoRes.titleFontSize ∧ demoRes.titleFontSize ≤ 80 ∧
    16 ≤ demoRes.bulletFontSize ∧ demoRes.bulletFontSize ≤ 60 :=
  C2_font_size_ranges envB "a.png" "Make Tea" none demoRes (by decide)

/-! ### Claim C4 -/

/-- C4, counterexample.  The claim's "floor of 16 pixels" is false: on a
460-pixel-wide image the clamped initial title size is
`int(460*0.05) = 23` (odd), and with the measured width stuck above 80%
of the image width the loop steps 23 → 21 → 19 → 17 → 15, ending below
the claimed floor. -/
theorem C4_counterexample :
    overlay_text_on_image envOdd2 "b.png" "y" none = some oddRes2 ∧
    oddRes2.titleFontSize < 16 :=
  ⟨by decide, by decide⟩

/-- C4 (amended): the drawn title string is `"Show me steps for "`
followed by the lowercased prompt; the initial font size is
`clamp(int(5% of image width), 20, 80)`; the final size differs from it
by a number of 2px shrink steps taken only while the measured width
exceeded 80% of the image width and the size exceeded 16, so on exit the
measured width fits or the size is at most 16 — and since the guard is
checked before each 2px step, the true floor is 15, not 16. -/
theorem C4_title_and_shrink (e : Env) (ip pt : String) (op : Option String)
    (r : OverlayResult) (h : overlay_text_on_image e ip pt op = some r) :
    r.titleText = "Show me steps for " ++ pyLower pt ∧
    ∃ k, r.titleFontSize + 2 * k = titleSize0 r.imgW ∧ 15 ≤ r.titleFontSize ∧
      ((k = 0 ∧ r.titleFont = font0 e.truetypeOk (titleSize0 r.imgW)) ∨
        r.titleFont = Font.truetype r.titleFontSize) ∧
      (e.hasTextbbox = true →
        ¬(e.measure r.titleFont r.titleText > (r.imgW : ℚ) * (4/5) ∧
          16 < r.titleFontSize)) ∧
      (e.hasTextbbox = false → k = 0) := by
  obtain ⟨img, hlk, hcase⟩ := overlayCore_eq_ok (overlay_eq_some h)
  have hts := titleSize0_bounds img.width
  rcases hcase with ⟨hb, rfl⟩ | ⟨hb, s, f, tw', hs, rfl⟩
  · refine ⟨rfl, 0, by simp, by simp; omega, Or.inl ⟨rfl, by simp⟩, ?_, fun _ => rfl⟩
    intro hb'
    rw [hb] at hb'
    cases hb'
  · obtain ⟨k, hk, h15, hfc, hexit⟩ :=
      shrinkLoop_spec e.truetypeOk e.measure (titleOf pt) img.width
        (titleSize0 img.width) (titleSize0 img.width)
        (font0 e.truetypeOk (titleSize0 img.width))
        (e.measure (font0 e.truetypeOk (titleSize0 img.width)) (titleOf pt))
        s f tw' (by omega) (by omega) hs
    refine ⟨rfl, k, by simpa using hk, by simpa using h15, ?_, ?_, ?_⟩
    · rcases hfc with ⟨hk0, hf, _⟩ | ⟨hf, _⟩
      · exact Or.inl ⟨hk0, by simpa using hf⟩
      · exact Or.inr (by simpa using hf)
    · intro _
      have htw : e.measure f (titleOf pt) = tw' := by
        rcases hfc with ⟨_, hf, htw'⟩ | ⟨hf, htw'⟩
        · rw [htw', hf]
        · rw [htw']
      simpa [htw] using hexit
    · intro hb'
      rw [hb] at hb'
      cases hb'

/-- Witness for C4: the amended characterisation at a concrete run. -/
theorem C4_title_and_shrink_witness :
    demoRes.titleText = "Show me steps for " ++ pyLower "Make Tea" ∧
    ∃ k, demoRes.titleFontSize + 2 * k = titleSize0 demoRes.imgW ∧
      15 ≤ demoRes.titleFontSize ∧
      ((k = 0 ∧ demoRes.titleFont = font0 envB.truetypeOk (titleSize0 demoRes.imgW)) ∨
        demoRes.titleFont = Font.truetype demoRes.titleFontSize) ∧
      (envB.hasTextbbox = true →
        ¬(envB.measure demoRes.titleFont demoRes.titleText > (demoRes.imgW : ℚ) * (4/5) ∧
          16 < demoRes.titleFontSize)) ∧
      (envB.hasTextbbox = false → k = 0) :=
  C4_title_and_shrink envB "a.png" "Make Tea" none demoRes (by decide)

/-! ### Claim C10 -/

/-- C10: when `arial.ttf` is unavailable (so the default font was
substituted) but the measured title width still exceeds 80% of the image
width while the clamped size exceeds 16, the shrink loop's body reloads
`arial.ttf` outside the font-fallback handler; the exception reaches the
catch-all and `overlay_text_on_image` returns a null outcome. -/
theorem C10_shrink_reload_escapes_fallback (e : Env) (ip pt : String)
    (op : Option String) (img : Image)
    (hlk : fsLookup ip e.fs = some img) (htt : e.truetypeOk = false)
    (hbb : e.hasTextbbox = true)
    (hm : e.measure Font.defaultFont (titleOf pt) > (img.width : ℚ) * (4/5))
    (hsz : 16 < titleSize0 img.width) :
    overlay_text_on_image e ip pt op = none := by
  unfold overlay_text_on_image overlayCore
  rw [hlk]
  obtain ⟨n, hn⟩ : ∃ n, titleSize0 img.width = n + 1 :=
    ⟨titleSize0 img.width - 1, by omega⟩
  simp only [hbb, if_true, hn]
  have hfont : font0 e.truetypeOk (n + 1) = Font.defaultFont := by
    rw [htt]
    rfl
  rw [hfont, shrinkLoop, if_pos ⟨hm, by omega⟩, htt]
  simp [Except.toOption]

/-- Witness for C10 at a concrete environment without `arial.ttf`. -/
theorem C10_shrink_reload_escapes_fallback_witness :
    overlay_text_on_image envNoFont "a.png" "x" none = none :=
  C10_shrink_reload_escapes_fallback envNoFont "a.png" "x" none ⟨1000, 800⟩
    (by decide) (by decide) (by decide) (by decide) (by decide)

/-! ### Claim C5 -/

/-- The white bullet draw calls of any annotator result: one per
placeholder `"1. "` … `"5. "`, at the computed start and spacing. -/
theorem whiteDraws_mkResult (ttOk : Bool) (ip pt : String) (op : Option String)
    (img : Image) (tfs : Nat) (tfont : Font) :
    whiteDraws (mkResult ttOk ip pt op img tfs tfont).bulletDraws =
      (List.range 5).map (fun j =>
        DrawCall.mk ((img.width : ℚ) * (1/20))
          ((img.height : ℚ) * (1/20) + (tfs : ℚ) * (6/5) + (img.height : ℚ) * (1/50)
            + (j : ℚ) * qmin ((bulletSize0 img.width : ℚ) * (3/2))
              (((img.height : ℚ)
                - ((img.height : ℚ) * (1/20) + (tfs : ℚ) * (6/5)
                  + (img.height : ℚ) * (1/50))
                - (img.height : ℚ) * (1/10)) / 5))
          (toString (j + 1) ++ ". ") (255, 255, 255)
          (font0 ttOk (bulletSize0 img.width))) := rfl

/-- C5: exactly five bullet placeholders `"1. "` … `"5. "` are drawn in
white (each above its four outline copies), with font size
`clamp(int(4% of image width), 16, 60)`, the `j`-th at vertical offset
`j × min(1.5 × bullet size, remaining-height / 5)` below a start point
that sits 2% of the image height below the title block. -/
theorem C5_bullet_layout (e : Env) (ip pt : String) (op : Option String)
    (r : OverlayResult) (h : overlay_text_on_image e ip pt op = some r) :
    r.bulletFontSize = max 16 (min (r.imgW * 4 / 100) 60) ∧
    whiteDraws r.bulletDraws =
      (List.range 5).map (fun j =>
        DrawCall.mk ((r.imgW : ℚ) * (1/20))
          ((r.imgH : ℚ) * (1/20) + (r.titleFontSize : ℚ) * (6/5) + (r.imgH : ℚ) * (1/50)
            + (j : ℚ) * qmin ((r.bulletFontSize : ℚ) * (3/2))
              (((r.imgH : ℚ)
                - ((r.imgH : ℚ) * (1/20) + (r.titleFontSize : ℚ) * (6/5)
                  + (r.imgH : ℚ) * (1/50))
                - (r.imgH : ℚ) * (1/10)) / 5))
          (toString (j + 1) ++ ". ") (255, 255, 255) r.bulletFont) := by
  obtain ⟨img, hlk, hcase⟩ := overlayCore_eq_ok (overlay_eq_some h)
  rcases hcase with ⟨hb, rfl⟩ | ⟨hb, s, f, tw', hs, rfl⟩ <;>
    exact ⟨rfl, whiteDraws_mkResult _ _ _ _ _ _ _⟩

/-- Witness for C5 at a concrete successful run. -/
theorem C5_bullet_layout_witness :
    demoRes.bulletFontSize = max 16 (min (demoRes.imgW * 4 / 100) 60) ∧
    whiteDraws demoRes.bulletDraws =
      (List.range 5).map (fun j =>
        DrawCall.mk ((demoRes.imgW : ℚ) * (1/20))
          ((demoRes.imgH : ℚ) * (1/20) + (demoRes.titleFontSize : ℚ) * (6/5)
            + (demoRes.imgH : ℚ) * (1/50)
            + (j : ℚ) * qmin ((demoRes.bulletFontSize : ℚ) * (3/2))
              (((demoRes.imgH : ℚ)
                - ((demoRes.imgH : ℚ) * (1/20) + (demoRes.titleFontSize : ℚ) * (6/5)
                  + (demoRes.imgH : ℚ) * (1/50))
                - (demoRes.imgH : ℚ) * (1/10)) / 5))
          (toString (j + 1) ++ ". ") (255, 255, 255) demoRes.bulletFont) :=
  C5_bullet_layout envB "a.png" "Make Tea" none demoRes (by decide)

/-! ### Claims C3 and C6 -/

/-- C3: a row whose image cell or prompt cell is NaN (what pandas parses
an empty cell to) is skipped: the loop records only the skip marker (the
warning), raises nothing new, the remaining rows are processed
unchanged, and the summary records are exactly those of the remaining
rows. -/
theorem C3_empty_row_skipped (e : Env) (hs : List String) (idx : Nat)
    (row : List (Option String)) (rows : List (List (Option String)))
    (v1 v2 : Option String)
    (h1 : rowGet hs row "image_location" = Except.ok v1)
    (h2 : rowGet hs row "prompt_text" = Except.ok v2)
    (hna : v1 = none ∨ v2 = none) :
    processRows e hs idx (row :: rows)
      = Except.map (fun l => RowOutcome.skippedMissing idx :: l)
          (processRows e hs (idx + 1) rows)
    ∧ Except.map successRecords (processRows e hs idx (row :: rows))
      = Except.map successRecords (processRows e hs (idx + 1) rows) := by
  have hmain : processRows e hs idx (row :: rows)
      = Except.map (fun l => RowOutcome.skippedMissing idx :: l)
          (processRows e hs (idx + 1) rows) := by
    simp only [processRows]
    rw [h1, h2]
    rcases hna with rfl | rfl
    · cases processRows e hs (idx + 1) rows <;> simp [Except.map]
    · cases v1 <;> cases processRows e hs (idx + 1) rows <;> simp [Except.map]
  refine ⟨hmain, ?_⟩
  rw [hmain]
  cases processRows e hs (idx + 1) rows <;>
    simp [Except.map, successRecords, List.filterMap_cons]

/-- Witness for C3 at a concrete one-row table with a NaN image cell. -/
theorem C3_empty_row_skipped_witness :
    processRows envB ["image_location", "prompt_text"] 0 [[none, some "tea"]]
      = Except.map (fun l => RowOutcome.skippedMissing 0 :: l)
          (processRows envB ["image_location", "prompt_text"] 1 [])
    ∧ Except.map successRecords
        (processRows envB ["image_location", "prompt_text"] 0 [[none, some "tea"]])
      = Except.map successRecords
          (processRows envB ["image_location", "prompt_text"] 1 []) :=
  C3_empty_row_skipped envB ["image_location", "prompt_text"] 0 [none, some "tea"] []
    none (some "tea") (by decide) (by decide) (Or.inl rfl)

/-- C6: when `overlay_text_on_image` returns the null outcome for a row
(any exception was caught and logged inside it), the loop records the
failure marker, raises nothing, continues with the remaining rows, and
the summary records are exactly those of the remaining rows. -/
theorem C6_row_failure_contained (e : Env) (hs : List String) (idx : Nat)
    (row : List (Option String)) (rows : List (List (Option String)))
    (ip pt : String)
    (h1 : rowGet hs row "image_location" = Except.ok (some ip))
    (h2 : rowGet hs row "prompt_text" = Except.ok (some pt))
    (hov : overlay_text_on_image e ip pt (some (processOutPath ip)) = none) :
    processRows e hs idx (row :: rows)
      = Except.map (fun l => RowOutcome.failed idx :: l)
          (processRows e hs (idx + 1) rows)
    ∧ Except.map successRecords (processRows e hs idx (row :: rows))
      = Except.map successRecords (processRows e hs (idx + 1) rows) := by
  have hmain : processRows e hs idx (row :: rows)
      = Except.map (fun l => RowOutcome.failed idx :: l)
          (processRows e hs (idx + 1) rows) := by
    simp only [processRows]
    rw [h1, h2]
    cases processRows e hs (idx + 1) rows <;> simp [hov, Except.map]
  refine ⟨hmain, ?_⟩
  rw [hmain]
  cases processRows e hs (idx + 1) rows <;>
    simp [Except.map, successRecords, List.filterMap_cons]

/-- Witness for C6 at a concrete table whose image file cannot open. -/
theorem C6_row_failure_contained_witness :
    processRows envEmpty ["image_location", "prompt_text"] 0
        [[some "missing.png", some "tea"]]
      = Except.map (fun l => RowOutcome.failed 0 :: l)
          (processRows envEmpty ["image_location", "prompt_text"] 1 [])
    ∧ Except.map successRecords
        (processRows envEmpty ["image_location", "prompt_text"] 0
          [[some "missing.png", some "tea"]])
      = Except.map successRecords
          (processRows envEmpty ["image_location", "prompt_text"] 1 []) :=
  C6_row_failure_contained envEmpty ["image_location", "prompt_text"] 0
    [some "missing.png", some "tea"] [] "missing.png" "tea"
    (by decide) (by decide) (by decide)

/-! ### Claim C1 -/

/-- C1 (bug evidence): on a parsed table that lacks both required
columns but has no data rows (a CSV whose only line is the header
`foo,bar`), `process_file` raises nothing at all: the required-column
check compares the hard-coded column names to `None` and never fires, the
row loop finds no row on which to hit a `KeyError`, and the run completes
and writes an (empty) summary file — contradicting the documented
fatal-abort behaviour.  (With at least one data row the loop's
`row[image_col]` raises an accidental `KeyError` instead of the intended
`ValueError`.) -/
theorem C1_missing_columns_not_fatal :
    process_file envEmpty "input.csv" tblWrongCols =
      { err := none, outcomes := [],
        summaryPath := some "modified_images/processing_results.csv",
        summaryLines := some [""] } := by decide

/-! ### Claim C8 -/

/-- C8, counterexample.  A run on a supported input file whose single
row fails (its image cannot be opened) completes and writes the summary
file, but pandas serializes the empty record list as a single empty line:
the claimed header `original_image,prompt,modified_image` is absent. -/
theorem C8_counterexample :
    (process_file envEmpty "in.csv" tblMissingImg).err = none ∧
    (process_file envEmpty "in.csv" tblMissingImg).summaryLines = some [""] ∧
    ¬ "original_image,prompt,modified_image" ∈ ([""] : List String) := by decide

/-- C8 (amended): every run of `process_file` that completes without
raising writes the summary file `processing_results.csv` under the fixed
`modified_images` directory; when at least one row was successfully
processed it has the header `original_image,prompt,modified_image` and
one line per successful row (when no row succeeds the file is a single
empty line, without the header). -/
theorem C8_summary_file (e : Env) (fp : String) (t : Table)
    (hok : (process_file e fp t).err = none)
    (hne : successRecords (process_file e fp t).outcomes ≠ []) :
    (process_file e fp t).summaryPath
      = some "modified_images/processing_results.csv" ∧
    (process_file e fp t).summaryLines
      = some ("original_image,prompt,modified_image"
          :: (successRecords (process_file e fp t).outcomes).map
            (fun rec => rec.1 ++ "," ++ rec.2.1 ++ "," ++ rec.2.2)) := by
  by_cases hf : strEndsWith fp ".csv" = true ∨ strEndsWith fp ".xls" = true
      ∨ strEndsWith fp ".xlsx" = true
  · simp only [process_file, if_neg (not_not_intro hf), Option.isNone_some,
      Bool.false_eq_true, or_self, if_false] at hok hne ⊢
    cases hrec : processRows e t.headers 0 t.rows with
    | error c =>
      rw [hrec] at hok
      exact absurd hok (by simp)
    | ok outs =>
      rw [hrec] at hne
      have hne' : successRecords outs ≠ [] := hne
      refine ⟨rfl, ?_⟩
      show some (summaryCsvLines (successRecords outs))
        = some ("original_image,prompt,modified_image"
            :: (successRecords outs).map
              (fun rec => rec.1 ++ "," ++ rec.2.1 ++ "," ++ rec.2.2))
      rw [summaryCsvLines, if_neg hne']
  · simp only [process_file, if_pos hf] at hok
    exact absurd hok (by simp)

/-- Witness for C8 at a concrete run with one successful row. -/
theorem C8_summary_file_witness :
    (process_file envB "in.csv" tblOne).summaryPath
      = some "modified_images/processing_results.csv" ∧
    (process_file envB "in.csv" tblOne).summaryLines
      = some ("original_image,prompt,modified_image"
          :: (successRecords (process_file envB "in.csv" tblOne).outcomes).map
            (fun rec => rec.1 ++ "," ++ rec.2.1 ++ "," ++ rec.2.2)) :=
  C8_summary_file envB "in.csv" tblOne (by decide) (by decide)

/-! ### Claim C9 -/

theorem fsLookup_append (p : String) (ws fs : List (String × Image))
    (h : p ∉ ws.map Prod.fst) : fsLookup p (ws ++ fs) = fsLookup p fs := by
  induction ws with
  | nil => rfl
  | cons w ws ih =>
    obtain ⟨q, i⟩ := w
    simp only [List.map_cons, List.mem_cons, not_or] at h
    simp only [List.cons_append, fsLookup]
    rw [if_neg (fun hqp => h.1 hqp.symm)]
    exact ih h.2

/-- Lemma: `overlayCore` reads the file system only at the row's image path. -/
theorem overlayCore_fs_congr (fs1 fs2 : List (String × Image)) (tt hb : Bool)
    (m : Font → String → ℚ) (ip pt : String) (op : Option String)
    (h : fsLookup ip fs1 = fsLookup ip fs2) :
    overlayCore ⟨fs1, tt, hb, m⟩ ip pt op = overlayCore ⟨fs2, tt, hb, m⟩ ip pt op := by
  simp only [overlayCore, h]

/-- A row's image path is collected in `rowIps`. -/
theorem rowIps_head_mem (hs : List String) (row : List (Option String))
    (rows : List (List (Option String))) (ip pt : String)
    (h1 : rowGet hs row "image_location" = Except.ok (some ip))
    (h2 : rowGet hs row "prompt_text" = Except.ok (some pt)) :
    ip ∈ rowIps hs (row :: rows) := by
  simp [rowIps, List.filterMap_cons, h1, h2]

theorem rowIps_tail_subset (hs : List String) (row : List (Option String))
    (rows : List (List (Option String))) (p : String)
    (hp : p ∈ rowIps hs rows) : p ∈ rowIps hs (row :: rows) := by
  simp only [rowIps, List.filterMap_cons]
  split
  · exact hp
  · exact List.mem_cons_of_mem _ hp

/-- The row loop depends on the file system only through lookups of the
row image paths. -/
theorem processRows_fs_congr (fs1 fs2 : List (String × Image)) (tt hb : Bool)
    (m : Font → String → ℚ) (hs : List String) :
    ∀ (idx : Nat) (rows : List (List (Option String))),
    (∀ p ∈ rowIps hs rows, fsLookup p fs1 = fsLookup p fs2) →
    processRows ⟨fs1, tt, hb, m⟩ hs idx rows
      = processRows ⟨fs2, tt, hb, m⟩ hs idx rows := by
  intro idx rows
  induction rows generalizing idx with
  | nil => intro _; rfl
  | cons row rows ih =>
    intro h
    have htail : ∀ p ∈ rowIps hs rows, fsLookup p fs1 = fsLookup p fs2 :=
      fun p hp => h p (rowIps_tail_subset hs row rows p hp)
    simp only [processRows]
    cases hg1 : rowGet hs row "image_location" with
    | error c => rfl
    | ok ipO =>
      cases hg2 : rowGet hs row "prompt_text" with
      | error c => rfl
      | ok ptO =>
        cases ipO with
        | none => rw [ih (idx + 1) htail]
        | some ip =>
          cases ptO with
          | none => rw [ih (idx + 1) htail]
          | some pt =>
            have hov : overlay_text_on_image ⟨fs1, tt, hb, m⟩ ip pt
                  (some (processOutPath ip))
                = overlay_text_on_image ⟨fs2, tt, hb, m⟩ ip pt
                  (some (processOutPath ip)) := by
              unfold overlay_text_on_image
              rw [overlayCore_fs_congr fs1 fs2 tt hb m ip pt
                (some (processOutPath ip)) (h ip (rowIps_head_mem hs row rows ip pt hg1 hg2))]
            simp only [hov, ih (idx + 1) htail]

/-- C9: a second run on the same input file over the file system produced
by the first run (the first run's outputs written, every row's input
image unchanged because no input path collides with an output path)
produces exactly the same outcome — the same outcomes row by row, hence
output images with the same dimensions and the same draw calls, and the
same summary file. -/
theorem C9_idempotent (e : Env) (fp : String) (t : Table)
    (hdisj : ∀ p ∈ rowIps t.headers t.rows,
      p ∉ (writtenImages (process_file e fp t).outcomes).map Prod.fst) :
    process_file
        {e with fs := writtenImages (process_file e fp t).outcomes ++ e.fs} fp t
      = process_file e fp t := by
  generalize hws : writtenImages (process_file e fp t).outcomes = ws
  rw [hws] at hdisj
  have hpr : processRows ⟨ws ++ e.fs, e.truetypeOk, e.hasTextbbox, e.measure⟩
        t.headers 0 t.rows
      = processRows ⟨e.fs, e.truetypeOk, e.hasTextbbox, e.measure⟩ t.headers 0 t.rows :=
    processRows_fs_congr (ws ++ e.fs) e.fs e.truetypeOk e.hasTextbbox e.measure t.headers 0 t.rows
      (fun p hp => fsLookup_append p ws e.fs (hdisj p hp))
  unfold process_file
  rw [hpr]

/-- Witness for C9 at a concrete one-row run: the output lands in
`modified_images/`, distinct from the input path, and the second run
reproduces the first exactly. -/
theorem C9_idempotent_witness :
    process_file
        {envB with fs := writtenImages (process_file envB "in.csv" tblOne).outcomes
          ++ envB.fs} "in.csv" tblOne
      = process_file envB "in.csv" tblOne :=
  C9_idempotent envB "in.csv" tblOne (by decide)

/-! ### Claim C7: path computations -/

theorem rfindIdx_eq_none (c : Char) (l : List Char) (h : c ∉ l) :
    rfindIdx c l = none := by
  induction l with
  | nil => rfl
  | cons a l ih =>
    simp only [List.mem_cons, not_or] at h
    simp only [rfindIdx, ih h.2]
    rw [if_neg (fun hac => h.1 hac.symm)]

theorem rfindIdx_append_last (c : Char) (l₁ l₂ : List Char) (h : c ∉ l₂) :
    rfindIdx c (l₁ ++ c :: l₂) = some l₁.length := by
  induction l₁ with
  | nil =>
    simp [List.nil_append, rfindIdx, rfindIdx_eq_none c l₂ h]
  | cons a l₁ ih =>
    simp only [List.cons_append, rfindIdx, List.append_eq, ih]
    rfl

theorem drop_append_cons {α : Type} (l₁ l₂ : List α) (a : α) :
    (l₁ ++ a :: l₂).drop (l₁.length + 1) = l₂ := by
  rw [show l₁ ++ a :: l₂ = (l₁ ++ [a]) ++ l₂ by simp,
    show l₁.length + 1 = (l₁ ++ [a]).length by simp]
  exact List.drop_left _ _

theorem take_append_cons {α : Type} (l₁ l₂ : List α) (a : α) :
    (l₁ ++ a :: l₂).take l₁.length = l₁ :=
  List.take_left l₁ (a :: l₂)

/-- Evaluation of `os.path.basename` on a path of the form `dir/rest` with `rest`
slash-free returns `rest`. -/
theorem os_basename_split (la lb : List Char) (h : '/' ∉ lb) :
    os_basename (String.mk (la ++ '/' :: lb)) = String.mk lb := by
  unfold os_basename
  rw [show (String.mk (la ++ '/' :: lb)).data = la ++ '/' :: lb from rfl,
    rfindIdx_append_last '/' la lb h]
  simp only [drop_append_cons]

/-- Evaluation of `os.path.splitext` on a slash-free file name `n.x` with `n` nonempty
and dot-free and `x` dot-free splits at the dot. -/
theorem os_splitext_split (n x : String)
    (h1 : '/' ∉ n.data) (h2 : '.' ∉ n.data) (h3 : '/' ∉ x.data) (h4 : '.' ∉ x.data)
    (h5 : n.data ≠ []) :
    os_splitext (String.mk (n.data ++ '.' :: x.data))
      = (n, String.mk ('.' :: x.data)) := by
  simp only [os_splitext,
    rfindIdx_append_last '.' n.data x.data h4,
    rfindIdx_eq_none '/' (n.data ++ '.' :: x.data)
      (by simp only [List.mem_append, List.mem_cons, not_or]
          exact ⟨h1, by decide, h3⟩)]
  have hnotall :
      ¬ ((((n.data ++ '.' :: x.data).drop 0).take (n.data.length - 0)).all
        (fun c => decide (c = '.'))) = true := by
    simp only [List.drop_zero, Nat.sub_zero, take_append_cons]
    intro hall
    obtain ⟨a, ha⟩ := List.exists_mem_of_ne_nil n.data h5
    have := of_decide_eq_true (List.all_eq_true.mp hall a ha)
    exact h2 (this ▸ ha)
  rw [if_pos ⟨Nat.zero_le _, hnotall⟩]
  simp only [Nat.sub_zero, List.drop_zero, take_append_cons, List.drop_left]

/-- Evaluation of `os.path.dirname` of `d/rest` with `rest` slash-free and `d` not
ending in a slash is `d` (or `/` when `d` is empty). -/
theorem os_dirname_split (d : String) (lb : List Char) (h : '/' ∉ lb)
    (h6 : d.data.getLast? ≠ some '/') (hne : d.data ≠ []) :
    os_dirname (String.mk (d.data ++ '/' :: lb)) = d := by
  unfold os_dirname
  rw [show (String.mk (d.data ++ '/' :: lb)).data = d.data ++ '/' :: lb from rfl,
    rfindIdx_append_last '/' d.data lb h]
  simp only [take_append_cons]
  rw [show (d.data ++ '/' :: lb).take (d.data.length + 1) = d.data ++ ['/'] by
    rw [show d.data ++ '/' :: lb = (d.data ++ ['/']) ++ lb by simp,
      show d.data.length + 1 = (d.data ++ ['/']).length by simp]
    exact List.take_left _ _]
  obtain ⟨c, hc⟩ : ∃ c, d.data.getLast? = some c := by
    cases hlast : d.data.getLast? with
    | none => exact absurd (List.getLast?_eq_none_iff.mp hlast) hne
    | some c => exact ⟨c, rfl⟩
  have hcne : c ≠ '/' := fun hcc => h6 (hcc ▸ hc)
  obtain ⟨cs, hrev⟩ : ∃ cs, d.data.reverse = c :: cs := by
    cases hr : d.data.reverse with
    | nil =>
      exfalso
      apply hne
      simpa using congrArg List.reverse hr
    | cons a as =>
      refine ⟨as, ?_⟩
      have : d.data.reverse.head? = some a := by rw [hr]; rfl
      rw [List.head?_reverse, hc] at this
      obtain rfl := Option.some.inj this
      rfl
  rw [if_neg (by
    intro hall
    have := of_decide_eq_true (List.all_eq_true.mp hall c
      (List.mem_append_left ['/'] (List.mem_reverse.mp (hrev ▸ List.mem_cons_self c cs))))
    exact hcne this)]
  unfold rstripSlashes
  rw [show (d.data ++ ['/']).reverse = '/' :: d.data.reverse by simp,
    hrev, List.dropWhile_cons, if_pos (by decide), List.dropWhile_cons,
    if_neg (by simpa using hcne), ← hrev, List.reverse_reverse]

theorem data_mk (l : List Char) : (String.mk l).data = l := rfl

theorem data_slash : ("/" : String).data = ['/'] := rfl

theorem data_dot : ("." : String).data = ['.'] := rfl

theorem data_modifiedDot :
    ("_modified." : String).data = ("_modified" : String).data ++ ['.'] := rfl

theorem data_modImgSlash :
    ("modified_images/" : String).data
      = ("modified_images" : String).data ++ ['/'] := rfl

/-- Evaluation of `os.path.dirname` of a root-anchored path `/rest` (slash-free
`rest`) is `/`. -/
theorem os_dirname_root (lb : List Char) (h : '/' ∉ lb) :
    os_dirname (String.mk ('/' :: lb)) = "/" := by
  have h0 : rfindIdx '/' ([] ++ '/' :: lb) = some ([] : List Char).length :=
    rfindIdx_append_last '/' [] lb h
  simp only [List.nil_append, List.length_nil] at h0
  simp only [os_dirname, data_mk, h0, List.take, if_pos]
  rw [if_pos (by decide)]

/-- Evaluation of `os.path.join a b` as `a ++ "/" ++ b` when `b` does not start with a
slash, `a` is nonempty and `a` does not end with a slash. -/
theorem os_join_plain (a b : String) (hb : headIsSlash b = false)
    (ha : a ≠ "") (hl : lastIsSlash a = false) :
    os_join a b = a ++ "/" ++ b := by
  unfold os_join
  simp [hb, ha, hl]

/-- C7: with no caller-supplied output path, the output lands next to the
original image as `<name>_modified<ext>`; the path `process_file` passes
to the annotator is the same derived name inside the fixed
`modified_images` directory.  `d` is any directory prefix not ending in
`/`; `n.x` is a file name with dot-free, slash-free components. -/
theorem C7_output_path (d n x : String) (e : Env) (pt : String) (r : OverlayResult)
    (h1 : '/' ∉ n.data) (h2 : '.' ∉ n.data) (h3 : '/' ∉ x.data) (h4 : '.' ∉ x.data)
    (h5 : n ≠ "") (h6 : d.data.getLast? ≠ some '/')
    (hov : overlay_text_on_image e (d ++ "/" ++ n ++ "." ++ x) pt none = some r) :
    r.outputPath = d ++ "/" ++ n ++ "_modified." ++ x ∧
    processOutPath (d ++ "/" ++ n ++ "." ++ x)
      = "modified_images/" ++ n ++ "_modified." ++ x := by
  have h5' : n.data ≠ [] := fun hnd => h5 (strExt (by rw [hnd]))
  have hnoslash : '/' ∉ n.data ++ '.' :: x.data := by
    intro hmem
    rcases List.mem_append.mp hmem with hmem | hmem
    · exact h1 hmem
    · rcases List.mem_cons.mp hmem with hh | hmem
      · exact absurd hh (by decide)
      · exact h3 hmem
  have hdata : (d ++ "/" ++ n ++ "." ++ x).data
      = d.data ++ '/' :: (n.data ++ '.' :: x.data) := by
    simp [String.data_append, data_slash, data_dot]
  have hip : d ++ "/" ++ n ++ "." ++ x
      = String.mk (d.data ++ '/' :: (n.data ++ '.' :: x.data)) := strExt hdata
  have hbn : os_basename (d ++ "/" ++ n ++ "." ++ x)
      = String.mk (n.data ++ '.' :: x.data) := by
    rw [hip]
    exact os_basename_split d.data (n.data ++ '.' :: x.data) hnoslash
  have hder : derivedOutName (d ++ "/" ++ n ++ "." ++ x)
      = n ++ "_modified" ++ String.mk ('.' :: x.data) := by
    simp only [derivedOutName, hbn, os_splitext_split n x h1 h2 h3 h4 h5']
  have hnm : n ++ "_modified" ++ String.mk ('.' :: x.data)
      = n ++ "_modified." ++ x := by
    apply strExt
    simp [String.data_append, data_mk, data_modifiedDot]
  obtain ⟨c, cs, hncons⟩ : ∃ c cs, n.data = c :: cs := by
    cases hnd : n.data with
    | nil => exact absurd hnd h5'
    | cons c cs => exact ⟨c, cs, rfl⟩
  have hhead : headIsSlash (n ++ "_modified." ++ x) = false := by
    unfold headIsSlash
    rw [show (n ++ "_modified." ++ x).data
        = n.data ++ (("_modified." : String).data ++ x.data) by
      simp [String.data_append], hncons]
    exact decide_eq_false (fun hc => h1 (hc ▸ (hncons ▸ List.mem_cons_self c cs)))
  obtain ⟨img, hlk, hcase⟩ := overlayCore_eq_ok (overlay_eq_some hov)
  have hout : r.outputPath
      = os_join (os_dirname (d ++ "/" ++ n ++ "." ++ x))
          (derivedOutName (d ++ "/" ++ n ++ "." ++ x)) := by
    rcases hcase with ⟨_, rfl⟩ | ⟨_, s, f, tw', _, rfl⟩ <;> rfl
  constructor
  · rw [hout, hder, hnm]
    by_cases hdnil : d.data = []
    · have hdr : os_dirname (d ++ "/" ++ n ++ "." ++ x) = "/" := by
        rw [hip, hdnil, List.nil_append]
        exact os_dirname_root (n.data ++ '.' :: x.data) hnoslash
      rw [hdr]
      have : os_join "/" (n ++ "_modified." ++ x) = "/" ++ (n ++ "_modified." ++ x) := by
        unfold os_join
        rw [hhead]
        simp [lastIsSlash, headIsSlash]
      rw [this]
      apply strExt
      simp [String.data_append, data_slash, hdnil]
    · have hdr : os_dirname (d ++ "/" ++ n ++ "." ++ x) = d := by
        rw [hip]
        exact os_dirname_split d (n.data ++ '.' :: x.data) hnoslash h6 hdnil
      rw [hdr]
      have hdne : d ≠ "" := fun hd0 => hdnil (by rw [hd0])
      have hlast : lastIsSlash d = false := by
        unfold lastIsSlash
        cases hlc : d.data.getLast? with
        | none => rfl
        | some c' => exact decide_eq_false (fun hcc => h6 (hcc ▸ hlc))
      rw [os_join_plain d (n ++ "_modified." ++ x) hhead hdne hlast]
      apply strExt
      simp [String.data_append]
  · unfold processOutPath
    rw [hder, hnm,
      os_join_plain "modified_images" (n ++ "_modified." ++ x) hhead
        (by decide) (by decide)]
    apply strExt
    simp [String.data_append, data_modImgSlash, data_slash]

/-- Witness for C7 at a concrete run on `imgs/cat.png`. -/
theorem C7_output_path_witness :
    dirRes.outputPath = "imgs" ++ "/" ++ "cat" ++ "_modified." ++ "png" ∧
    processOutPath ("imgs" ++ "/" ++ "cat" ++ "." ++ "png")
      = "modified_images/" ++ "cat" ++ "_modified." ++ "png" :=
  C7_output_path "imgs" "cat" "png" envDir "tea" dirRes
    (by decide) (by decide) (by decide) (by decide) (by decide) (by decide) (by decide)

end TextOverlay
